import Mathlib

/-!
Verification of the location-path resolution and CSV update logic of
`src/homebox.py` (a CLI client for the Homebox inventory REST API).

The remote server is modelled as an in-memory snapshot: the list of
`Location` records plays the role of the `/locations` endpoints, the list
of `Tag` records plays the role of `/tags`, and server-assigned ids are
modelled by a counter (`nextId`).  Only mutating HTTP calls (POST / PUT /
DELETE) are recorded in the call trace, since the claims under study only
concern mutating calls; GET requests read the snapshot and change nothing.
Python exceptions are modelled with `Except`, with the pre-raise state
carried alongside the error so that the trace of calls made before the
exception stays observable.
-/

namespace Homebox

/-- Embeds the `Location` dataclass of `homebox.py` (the `client` back
reference is dropped; it only carries the HTTP session). -/
structure Location where
  id : String
  name : String
  description : String
  parentId : Option String
deriving DecidableEq

/-- Embeds the `Tag` dataclass. -/
structure Tag where
  id : String
  name : String
deriving DecidableEq

/-- The JSON payload assembled for `PUT /items/{id}` in
`update_items_from_csv_readable`. -/
structure ItemData where
  name : String
  description : String
  quantity : Int
  locationId : Option String
  tagIds : List String
deriving DecidableEq

/-- A mutating HTTP call issued by the client. -/
inductive ApiCall where
  | postTags (name : String)
  | postLocations (name description : String) (parentId : Option String)
  | putItem (itemId : String) (data : ItemData)
deriving DecidableEq

/-- The `ValueError` raised by `resolve_location_path`: it carries the full
path and the offending segment (Python formats them into the message
`Location path {path} is invalid at {part}`). -/
structure ResolutionError where
  path : String
  part : String
deriving DecidableEq

/-- Python exception kinds raised by `create_location`: `valueError` for
deliberate domain errors, `typeError` for the crash produced by
subscripting `None`. -/
inductive PyError where
  | typeError (msg : String)
  | valueError (msg : String)
deriving DecidableEq

/-- Errors that abort `update_items_from_csv_readable`: a path resolution
failure, a `KeyError` on a missing CSV column, or an `int()` parse failure
on the quantity column. -/
inductive UpdErr where
  | resolution (e : ResolutionError)
  | keyError (key : String)
  | badInt (s : String)
deriving DecidableEq

/-- The server/world state threaded through the mutating operations. -/
structure St where
  locs : List Location
  tags : List Tag
  nextId : Nat
  calls : List ApiCall
  logs : List String
deriving DecidableEq

/-- A CSV row as produced by `csv.DictReader`: an association list from
column name to cell value. -/
abbrev Row := List (String × String)

/-- `row.get(k)`: first value bound to `k`, if any. -/
def pyGet (row : Row) (k : String) : Option String :=
  (row.find? (fun e => e.1 == k)).map (fun e => e.2)

/-- `row.get(k, d)`: lookup with a default. -/
def pyGetD (row : Row) (k d : String) : String :=
  (pyGet row k).getD d

/-- Leading and trailing whitespace removal on a character list
(the character-level model of Python `str.strip()`). -/
def stripChars (s : List Char) : List Char :=
  ((s.dropWhile Char.isWhitespace).reverse.dropWhile Char.isWhitespace).reverse

/-- Python `str.strip()`. -/
def pyStrip (s : String) : String :=
  String.mk (stripChars s.data)

/-- Character-level model of Python `str.split(sep)` for a one-character
separator: keeps empty segments, and splitting the empty string yields one
empty segment. -/
def splitChars (sep : Char) : List Char → List (List Char)
  | [] => [[]]
  | c :: cs =>
    if c = sep then [] :: splitChars sep cs
    else
      match splitChars sep cs with
      | [] => [[c]]
      | h :: t => (c :: h) :: t

/-- Python `s.split(sep)` for a one-character separator. -/
def pySplit (s : String) (sep : Char) : List String :=
  (splitChars sep s.data).map (fun cs => String.mk cs)

/-- Interleaves a separator character between the chunks; inverse of
`splitChars` on its image. -/
def joinCharsList (sep : Char) : List (List Char) → List Char
  | [] => []
  | [c] => c
  | c :: d :: rest => c ++ sep :: joinCharsList sep (d :: rest)

/-- Joins a list of names with `/`, root first — the shape of the paths
produced by `build_location_lookup_tree`. -/
def joinNames : List String → String
  | [] => ""
  | [n] => n
  | n :: m :: rest => n ++ "/" ++ joinNames (m :: rest)

/-- Value of a decimal digit list. -/
def natOfDigits (cs : List Char) : Nat :=
  cs.foldl (fun a c => a * 10 + (c.toNat - 48)) 0

/-- Python `int(s)` on a string: strips whitespace, accepts an optional
sign followed by at least one digit; anything else raises (here `none`). -/
def pyInt (s : String) : Option Int :=
  match stripChars s.data with
  | [] => none
  | c :: cs =>
    if c = '-' then
      if cs ≠ [] ∧ cs.all Char.isDigit then some (-(natOfDigits cs : Int)) else none
    else if c = '+' then
      if cs ≠ [] ∧ cs.all Char.isDigit then some ((natOfDigits cs : Int)) else none
    else
      if (c :: cs).all Char.isDigit then some ((natOfDigits (c :: cs) : Int)) else none

/-- `int(row.get("quantity", 1))`: a missing column gives the integer `1`
directly, a present column goes through `int()`. -/
def parseQuantity : Option String → Option Int
  | none => some 1
  | some s => pyInt s

/-- The parent name the server reports in the detail view of a location
(`detail.get("parent", {}).get("name")` in `get_location`): the name of
the location whose id is `parentId`, if any. -/
def parentName (locs : List Location) (l : Location) : Option String :=
  match l.parentId with
  | none => none
  | some pid => (locs.find? (fun x => x.id == pid)).map Location.name

/-- Embeds `HomeboxClient.get_location`: collect the candidates whose name
matches, then return the first one whose parent name matches the filter
(or the first candidate outright when no filter is given). -/
def get_location (locs : List Location) (name : String) (parent_name : Option String) :
    Option Location :=
  (locs.filter (fun l => l.name == name)).find?
    (fun l => parent_name.isNone || (parentName locs l == parent_name))

/-- The segment loop of `resolve_location_path`: walk the parts, threading
the previous segment string as the parent-name filter, and return the id
of the record matched for the last part.  The `[]` case is unreachable:
`split` never yields an empty list (Python would hit an unbound variable
there). -/
def resolveParts (locs : List Location) (path : String) :
    List String → Option String → Except ResolutionError (Option String)
  | [], _ => Except.ok none
  | [p], pn =>
    match get_location locs p pn with
    | none => Except.error ⟨path, p⟩
    | some loc => Except.ok (some loc.id)
  | p :: q :: rest, pn =>
    match get_location locs p pn with
    | none => Except.error ⟨path, p⟩
    | some _ => resolveParts locs path (q :: rest) (some p)

/-- Embeds `HomeboxClient.resolve_location_path`: the empty path returns
`None` at once; otherwise the stripped path is split on `/` and walked. -/
def resolve_location_path (locs : List Location) (path : String) :
    Except ResolutionError (Option String) :=
  if path = "" then Except.ok none
  else resolveParts locs path (pySplit (pyStrip path) '/') none

/-- The `by_id` dictionary of `build_location_lookup_tree`: a Python dict
comprehension keeps the last binding of a duplicated key, hence the lookup
over the reversed list. -/
def by_id_get (locs : List Location) (pid : String) : Option Location :=
  locs.reverse.find? (fun l => l.id == pid)

/-- The `get_path` closure of `build_location_lookup_tree`: a falsy
(`None` or empty) parent id or a parent id absent from `by_id` makes the
location its own root.  Python recurses unboundedly; the `fuel` argument
makes the recursion structural, and `build_location_lookup_tree` supplies
enough fuel for every acyclic forest. -/
def get_path (locs : List Location) : Nat → Location → String
  | 0, loc => loc.name
  | fuel + 1, loc =>
    match loc.parentId with
    | none => loc.name
    | some pid =>
      if pid = "" then loc.name
      else
        match by_id_get locs pid with
        | none => loc.name
        | some parent => get_path locs fuel parent ++ "/" ++ loc.name

/-- Embeds `HomeboxClient.build_location_lookup_tree`: the map from each
location id to its full slash-joined path.  (The Python memo table only
affects running time, not the resulting mapping.) -/
def build_location_lookup_tree (locs : List Location) : List (String × String) :=
  locs.map (fun l => (l.id, get_path locs locs.length l))

/-- Dictionary lookup in the table built above. -/
def lookupPath (m : List (String × String)) (k : String) : Option String :=
  (m.find? (fun e => e.1 == k)).map (fun e => e.2)

/-- Embeds `HomeboxClient.get_or_create_tag`: return the existing tag of
that name, otherwise `POST /tags` and return the created tag (its
server-assigned id modelled by the counter). -/
def get_or_create_tag (st : St) (name : String) : Tag × St :=
  match st.tags.find? (fun t => t.name == name) with
  | some t => (t, st)
  | none =>
    let t : Tag := ⟨"tag" ++ toString st.nextId, name⟩
    (t, { st with tags := st.tags ++ [t], nextId := st.nextId + 1,
                  calls := st.calls ++ [ApiCall.postTags name] })

/-- Embeds `HomeboxClient.resolve_tag_names`: an empty string yields no
tags; otherwise split on commas, strip each name, and get-or-create each
tag in order, collecting the ids. -/
def resolve_tag_names (st : St) (s : String) : List String × St :=
  if s = "" then ([], st)
  else
    ((pySplit s ',').map pyStrip).foldl
      (fun acc n =>
        let r := get_or_create_tag acc.2 n
        (acc.1 ++ [r.1.id], r.2))
      ([], st)

/-- The warning logged for a CSV row without an id (Python interpolates
the row into the message; the wording is immaterial to the claims). -/
def missingIdWarning (_row : Row) : String :=
  "Missing item id in row"

/-- One iteration of the row loop of `update_items_from_csv_readable`:
a falsy id (missing column or empty cell) logs a warning and skips the
row; otherwise the location path is resolved, the tags are resolved (and
created on demand), the payload is assembled, and either a dry-run line is
logged or `PUT /items/{id}` is issued. -/
def processRow (dry : Bool) (st : St) (row : Row) : Except (UpdErr × St) St :=
  match pyGet row "id" with
  | none => Except.ok { st with logs := st.logs ++ [missingIdWarning row] }
  | some iid =>
    if iid = "" then Except.ok { st with logs := st.logs ++ [missingIdWarning row] }
    else
      match resolve_location_path st.locs (pyGetD row "locationPath" "") with
      | Except.error e => Except.error (UpdErr.resolution e, st)
      | Except.ok location_id =>
        let tr := resolve_tag_names st (pyGetD row "tags" "")
        match pyGet row "name" with
        | none => Except.error (UpdErr.keyError "name", tr.2)
        | some nm =>
          match parseQuantity (pyGet row "quantity") with
          | none => Except.error (UpdErr.badInt (pyGetD row "quantity" ""), tr.2)
          | some q =>
            let data : ItemData :=
              { name := nm, description := pyGetD row "description" "",
                quantity := q, locationId := location_id, tagIds := tr.1 }
            if dry then
              Except.ok { tr.2 with
                logs := tr.2.logs ++ ["[DRY RUN] Would update item " ++ iid] }
            else
              Except.ok { tr.2 with
                calls := tr.2.calls ++ [ApiCall.putItem iid data],
                logs := tr.2.logs ++ ["Updated item " ++ nm] }

/-- Embeds `HomeboxClient.update_items_from_csv_readable`: process the
rows in order; an exception in one row aborts the remaining batch. -/
def update_items_from_csv_readable (st : St) (rows : List Row) (dry : Bool) :
    Except (UpdErr × St) St :=
  match rows with
  | [] => Except.ok st
  | row :: rest =>
    match processRow dry st row with
    | Except.error e => Except.error e
    | Except.ok st1 => update_items_from_csv_readable st1 rest dry

/-- The `parent_id` computation of `create_location`:
`self.get_location(parent_name)["id"] if parent_name else None`.  A falsy
parent name gives `None`; a named parent that cannot be found makes the
subscript `["id"]` blow up on `None` with a `TypeError`. -/
def lookupParentId (st : St) (parent_name : Option String) :
    Except (PyError × St) (Option String) :=
  match parent_name with
  | none => Except.ok none
  | some pn =>
    if pn = "" then Except.ok none
    else
      match get_location st.locs pn none with
      | none => Except.error (PyError.typeError "NoneType object is not subscriptable", st)
      | some p => Except.ok (some p.id)

/-- Embeds `HomeboxClient.create_location`: if a location with this name
passes the parent-name filter the call logs a skip message and returns
`None` without any POST; otherwise the parent id is looked up and
`POST /locations` is issued (the created id modelled by the counter). -/
def create_location (st : St) (name description : String) (parent_name : Option String) :
    Except (PyError × St) (Option Location × St) :=
  match get_location st.locs name parent_name with
  | some _ =>
    Except.ok (none, { st with logs := st.logs ++ ["Location already exists. Skipping."] })
  | none =>
    match lookupParentId st parent_name with
    | Except.error e => Except.error e
    | Except.ok parent_id =>
      let newLoc : Location :=
        { id := "loc" ++ toString st.nextId, name := name,
          description := description, parentId := parent_id }
      Except.ok (some newLoc,
        { st with locs := st.locs ++ [newLoc], nextId := st.nextId + 1,
                  calls := st.calls ++ [ApiCall.postLocations name description parent_id] })

/-- The mutating calls recorded by an update run, whether it finished or
aborted. -/
def callsOf : Except (UpdErr × St) St → List ApiCall
  | Except.ok st => st.calls
  | Except.error e => e.2.calls

/-- The first segment of a part list on which the lookup of
`resolve_location_path` comes up empty, threading the parent-name filter
exactly as the loop does. -/
def firstFailure (locs : List Location) : List String → Option String → Option String
  | [], _ => none
  | p :: rest, pn =>
    match get_location locs p pn with
    | none => some p
    | some _ => firstFailure locs rest (some p)

/-- Sibling-uniqueness of names, as claim C1 assumes it: two records with
the same name and the same parent are the same record. -/
def siblingUniqueB (locs : List Location) : Bool :=
  locs.all (fun l1 => locs.all (fun l2 =>
    !(l1.name == l2.name && l1.parentId == l2.parentId) || decide (l1 = l2)))

/-- Modelled from the spec: section 7 classes unresolvable paths and
missing parents as domain errors, and the code raises those deliberate
domain failures as `ValueError` (`resolve_location_path`,
`Location.set_parent`).  A `TypeError` is an unintended crash, not a
domain error. -/
def isDomainError : PyError → Bool
  | PyError.valueError _ => true
  | PyError.typeError _ => false

/-- An ancestor chain recorded leaf-first: the head is the location, each
element's `parentId` resolves (through the `by_id` dictionary) to the next
element, and the last element is a root (`parentId` is `None`).  This is
the well-formed-forest evidence the root-to-leaf claims quantify over. -/
inductive IsUpChain (locs : List Location) : List Location → Prop
  | root (loc : Location) (hmem : loc ∈ locs) (hroot : loc.parentId = none) :
      IsUpChain locs [loc]
  | step (loc parent : Location) (rest : List Location) (pid : String)
      (hmem : loc ∈ locs) (hpid : loc.parentId = some pid) (hne : pid ≠ "")
      (hfind : by_id_get locs pid = some parent)
      (htail : IsUpChain locs (parent :: rest)) :
      IsUpChain locs (loc :: parent :: rest)

/-- A chain recorded root-first, as the resolution loop consumes it: each
element passes the `get_location` match condition under the running
parent-name filter, and the filter for the tail is the element's own
name. -/
inductive ChainFrom (locs : List Location) : Option String → List Location → Prop
  | nil (pn : Option String) : ChainFrom locs pn []
  | cons (pn : Option String) (l : Location) (rest : List Location)
      (hmem : l ∈ locs)
      (hcond : (pn.isNone || (parentName locs l == pn)) = true)
      (htail : ChainFrom locs (some l.name) rest) :
      ChainFrom locs pn (l :: rest)

/-- Example locations shared by several witnesses: the `Garage`/`Shelf`
forest of spec section 8. -/
def exGarage : Location := ⟨"1", "Garage", "", none⟩

/-- The `Shelf` child of `exGarage`. -/
def exShelf : Location := ⟨"2", "Shelf", "", some "1"⟩

/-- The two-record forest `[Garage, Shelf]`. -/
def exLocsGS : List Location := [exGarage, exShelf]

/-- The empty world: no locations, no tags, no calls issued yet. -/
def exStEmpty : St := ⟨[], [], 0, [], []⟩

/-- A three-record forest with sibling-unique but globally duplicated
names, listed with the nested `Garage` (under `Garage/Shelf`) first. -/
def exC1locs : List Location :=
  [⟨"3", "Garage", "", some "2"⟩, ⟨"1", "Garage", "", none⟩, ⟨"2", "Shelf", "", some "1"⟩]

/-- The root `Garage` record of `exC1locs`. -/
def exC1root : Location := ⟨"1", "Garage", "", none⟩

/-- A CSV row whose tags column names a tag that does not exist yet. -/
def exC2row : Row := [("id", "1"), ("name", "X"), ("locationPath", ""), ("tags", "newtag")]

/-- Root record named `A` (id `a`). -/
def exA : Location := ⟨"a", "A", "", none⟩

/-- Record named `B` whose parent is the *other* record named `A`
(id `a2`), not `exA`. -/
def exB : Location := ⟨"b", "B", "", some "a2"⟩

/-- Forest with two distinct records named `A` (one root, one under `Z`)
and a `B` under the nested one. -/
def exC3locs : List Location :=
  [exA, ⟨"z", "Z", "", none⟩, ⟨"a2", "A", "", some "z"⟩, exB]

/-- Record named `B` whose parent is `exA`. -/
def exBA : Location := ⟨"b", "B", "", some "a"⟩

/-- Simple two-level forest `A / B` used to instantiate the amended C3. -/
def exC3amLocs : List Location := [exA, exBA]

/-- A world already holding the root `Garage` location. -/
def exStGarage : St := ⟨[exGarage], [], 0, [], []⟩

/-- A CSV row with no id column at all. -/
def exC8row : Row := [("name", "X")]

/-- A CSV row with an id and name but an empty location path. -/
def exC9row : Row := [("id", "7"), ("name", "W"), ("locationPath", "")]

/-- A location whose parent id points at no fetched location. -/
def exOrphan : Location := ⟨"1", "Orphan", "", some "ghost"⟩

/-- The one-record forest holding only the orphan. -/
def exC10locs : List Location := [exOrphan]

/-! ## Helper lemmas about the string machinery -/

theorem splitChars_ne_nil (sep : Char) : ∀ cs : List Char, splitChars sep cs ≠ [] := by
  intro cs
  cases cs with
  | nil => simp [splitChars]
  | cons c cs =>
    simp only [splitChars]
    by_cases h : c = sep
    · simp [h]
    · simp only [h, if_false]
      cases splitChars sep cs <;> simp

theorem joinCharsList_splitChars (sep : Char) :
    ∀ cs : List Char, joinCharsList sep (splitChars sep cs) = cs := by
  intro cs
  induction cs with
  | nil => rfl
  | cons c cs ih =>
    obtain ⟨h0, t0, hr⟩ : ∃ h0 t0, splitChars sep cs = h0 :: t0 := by
      cases hsp : splitChars sep cs with
      | nil => exact absurd hsp (splitChars_ne_nil sep cs)
      | cons a b => exact ⟨a, b, rfl⟩
    by_cases h : c = sep
    · subst h
      simp only [splitChars, if_pos rfl, hr, joinCharsList]
      rw [← hr, ih]
      simp
    · simp only [splitChars, if_neg h, hr]
      cases t0 with
      | nil =>
        simp only [joinCharsList]
        have : joinCharsList sep (splitChars sep cs) = cs := ih
        rw [hr] at this
        simp only [joinCharsList] at this
        simp [this]
      | cons u us =>
        simp only [joinCharsList]
        have : joinCharsList sep (splitChars sep cs) = cs := ih
        rw [hr] at this
        simp only [joinCharsList] at this
        simp [this]

theorem joinNames_map_mk :
    ∀ css : List (List Char),
      joinNames (css.map (fun cs => String.mk cs)) = String.mk (joinCharsList '/' css) := by
  intro css
  induction css with
  | nil => rfl
  | cons c rest ih =>
    cases rest with
    | nil => rfl
    | cons d ds =>
      have ih' := ih
      simp only [List.map_cons] at ih' ⊢
      simp only [joinNames, joinCharsList]
      rw [ih']
      apply String.ext
      simp [String.data_append]

theorem joinNames_pySplit (s : String) : joinNames (pySplit s '/') = s := by
  unfold pySplit
  rw [joinNames_map_mk, joinCharsList_splitChars]

theorem joinNames_cons_of_ne_nil (a : String) (ys : List String) (h : ys ≠ []) :
    joinNames (a :: ys) = a ++ "/" ++ joinNames ys := by
  cases ys with
  | nil => exact absurd rfl h
  | cons b bs => rfl

theorem joinNames_snoc :
    ∀ (xs : List String) (x : String), xs ≠ [] →
      joinNames (xs ++ [x]) = joinNames xs ++ "/" ++ x := by
  intro xs
  induction xs with
  | nil => intro x h; exact absurd rfl h
  | cons a as ih =>
    intro x _h
    cases as with
    | nil => rfl
    | cons b bs =>
      have step := ih x (by simp)
      rw [List.cons_append, joinNames_cons_of_ne_nil a _ (by simp),
        joinNames_cons_of_ne_nil a (b :: bs) (by simp), step]
      simp only [String.append_assoc]

/-! ## Helper lemmas about lookups under unique keys -/

theorem find?_isSome_of_mem {α : Type} (p : α → Bool) :
    ∀ (xs : List α) (x : α), x ∈ xs → p x = true → (xs.find? p).isSome = true := by
  intro xs
  induction xs with
  | nil => intro x hx; simp at hx
  | cons a as ih =>
    intro x hx hp
    by_cases ha : p a = true
    · rw [List.find?_cons_of_pos as ha]; rfl
    · rw [List.find?_cons_of_neg as ha]
      rcases List.mem_cons.mp hx with h | h
      · subst h; exact absurd hp ha
      · exact ih x h hp

theorem find_by_key {α : Type} (key : α → String) :
    ∀ (xs : List α), (xs.map key).Nodup →
      ∀ x ∈ xs, xs.find? (fun y => key y == key x) = some x := by
  intro xs
  induction xs with
  | nil => intro _ x hx; simp at hx
  | cons a as ih =>
    intro hnd x hx
    have hnd' : (∀ y ∈ as, ¬ key y = key a) ∧ (as.map key).Nodup := by
      simpa using hnd
    by_cases he : key a = key x
    · have hpos : (fun y => key y == key x) a = true := by simp [he]
      rw [List.find?_cons_of_pos as hpos]
      have : x = a := by
        rcases List.mem_cons.mp hx with h | h
        · exact h
        · exact absurd he.symm (hnd'.1 x h)
      rw [this]
    · have hneg : ¬ (fun y => key y == key x) a = true := by simp [he]
      rw [List.find?_cons_of_neg as hneg]
      have hx' : x ∈ as := by
        rcases List.mem_cons.mp hx with h | h
        · exact absurd (by rw [h]) he
        · exact h
      exact ih hnd'.2 x hx'

theorem filter_name_eq_single :
    ∀ (locs : List Location), (locs.map Location.name).Nodup →
      ∀ l ∈ locs, locs.filter (fun x => x.name == l.name) = [l] := by
  intro locs
  induction locs with
  | nil => intro _ l hl; simp at hl
  | cons a as ih =>
    intro hn l hl
    have hnd' : (∀ y ∈ as, ¬ y.name = a.name) ∧ (as.map Location.name).Nodup := by
      simpa using hn
    by_cases he : a.name = l.name
    · have hal : a = l := by
        rcases List.mem_cons.mp hl with h | h
        · exact h.symm
        · exact absurd he.symm (hnd'.1 l h)
      subst hal
      rw [List.filter_cons_of_pos (by simp)]
      have hemp : as.filter (fun x => x.name == a.name) = [] := by
        rw [List.filter_eq_nil_iff]
        intro b hb
        simpa using hnd'.1 b hb
      rw [hemp]
    · rw [List.filter_cons_of_neg (by simpa using he)]
      have hl' : l ∈ as := by
        rcases List.mem_cons.mp hl with h | h
        · exact absurd (by rw [h]) he
        · exact h
      exact ih hnd'.2 l hl'

/-- Under globally unique names, `get_location` on a present name returns
exactly that record when its parent passes the filter. -/
theorem get_location_unique (locs : List Location)
    (hn : (locs.map Location.name).Nodup) (l : Location) (hl : l ∈ locs)
    (pn : Option String)
    (hc : (pn.isNone || (parentName locs l == pn)) = true) :
    get_location locs l.name pn = some l := by
  unfold get_location
  rw [filter_name_eq_single locs hn l hl]
  exact List.find?_cons_of_pos [] hc

/-- What a successful `get_location` guarantees: the returned record bears
the requested name and passes the parent-name filter. -/
theorem get_location_some (locs : List Location) (n : String) (pn : Option String)
    (l : Location) (h : get_location locs n pn = some l) :
    l.name = n ∧ (pn.isNone || (parentName locs l == pn)) = true := by
  unfold get_location at h
  have h1 := List.find?_some h
  have h2 := List.mem_filter.mp (List.mem_of_find?_eq_some h)
  exact ⟨eq_of_beq h2.2, h1⟩

/-! ## Chain lemmas -/

theorem resolveParts_chain (locs : List Location) (path : String)
    (hn : (locs.map Location.name).Nodup) :
    ∀ (cs : List Location) (pn : Option String) (last : Location),
      ChainFrom locs pn cs → cs.getLast? = some last →
      resolveParts locs path (cs.map Location.name) pn = Except.ok (some last.id) := by
  intro cs
  induction cs with
  | nil => intro pn last _ hl; simp at hl
  | cons l rest ih =>
    intro pn last h hl
    cases h with
    | cons _ _ _ hmem hcond htail =>
      have hg : get_location locs l.name pn = some l :=
        get_location_unique locs hn l hmem pn hcond
      cases rest with
      | nil =>
        have : last = l := by simpa using hl.symm
        subst this
        simp [resolveParts, hg]
      | cons r rs =>
        have hl' : (r :: rs).getLast? = some last := by
          rwa [List.getLast?_cons_cons] at hl
        have := ih (some l.name) last htail hl'
        simpa [resolveParts, hg] using this

theorem ChainFrom_cons_inv (locs : List Location) (pn : Option String)
    (l : Location) (rest : List Location) (h : ChainFrom locs pn (l :: rest)) :
    l ∈ locs ∧ (pn.isNone || (parentName locs l == pn)) = true ∧
      ChainFrom locs (some l.name) rest := by
  cases h with
  | cons _ _ _ hmem hcond htail => exact ⟨hmem, hcond, htail⟩

theorem ChainFrom_snoc (locs : List Location) :
    ∀ (cs : List Location) (pn : Option String) (last l : Location),
      ChainFrom locs pn cs → cs.getLast? = some last →
      l ∈ locs → parentName locs l = some last.name →
      ChainFrom locs pn (cs ++ [l]) := by
  intro cs
  induction cs with
  | nil => intro pn last l _ hl; simp at hl
  | cons c rest ih =>
    intro pn last l h hl hmem hpar
    obtain ⟨hcmem, hcond, htail⟩ := ChainFrom_cons_inv locs pn c rest h
    cases rest with
    | nil =>
      have hlast : c = last := by simpa using hl
      subst hlast
      refine ChainFrom.cons pn c [l] hcmem hcond ?_
      refine ChainFrom.cons (some c.name) l [] hmem ?_ (ChainFrom.nil _)
      simp [hpar]
    | cons r rs =>
      have hl' : (r :: rs).getLast? = some last := by
        rwa [List.getLast?_cons_cons] at hl
      exact ChainFrom.cons pn c ((r :: rs) ++ [l]) hcmem hcond
        (ih (some c.name) last l htail hl' hmem hpar)

/-- `by_id_get` agrees with the server-side parent lookup when ids are
unique. -/
theorem parentName_of_by_id_get (locs : List Location)
    (hids : (locs.map Location.id).Nodup) (loc parent : Location) (pid : String)
    (hpid : loc.parentId = some pid) (hfind : by_id_get locs pid = some parent) :
    parentName locs loc = some parent.name := by
  have hfind' : locs.reverse.find? (fun l => l.id == pid) = some parent := hfind
  have hmem : parent ∈ locs := List.mem_reverse.mp (List.mem_of_find?_eq_some hfind')
  have hbeq := @List.find?_some Location (fun l => l.id == pid) parent locs.reverse hfind'
  have hpidEq : parent.id = pid := by simpa using hbeq
  simp only [parentName, hpid]
  rw [← hpidEq, find_by_key Location.id locs hids parent hmem]
  rfl

theorem upChain_chainFrom (locs : List Location)
    (hids : (locs.map Location.id).Nodup) :
    ∀ chain, IsUpChain locs chain → ChainFrom locs none chain.reverse := by
  intro chain h
  induction h with
  | root loc hmem _hroot =>
    simpa using ChainFrom.cons none loc [] hmem (by simp) (ChainFrom.nil _)
  | step loc parent rest pid hmem hpid _hne hfind _htail ih =>
    have h1 : ((parent :: rest).reverse).getLast? = some parent := by
      rw [List.getLast?_reverse]; rfl
    have hparname : parentName locs loc = some parent.name :=
      parentName_of_by_id_get locs hids loc parent pid hpid hfind
    have := ChainFrom_snoc locs ((parent :: rest).reverse) none parent loc ih h1
      hmem hparname
    simpa [List.reverse_cons] using this

theorem upChain_head_mem (locs : List Location) (chain : List Location)
    (h : IsUpChain locs chain) (loc : Location) (hhead : chain.head? = some loc) :
    loc ∈ locs := by
  cases h with
  | root l hmem _ =>
    have : loc = l := by simpa using hhead.symm
    exact this ▸ hmem
  | step l parent rest pid hmem _ _ _ _ =>
    have : loc = l := by simpa using hhead.symm
    exact this ▸ hmem

theorem get_path_chain (locs : List Location) :
    ∀ chain, IsUpChain locs chain →
      ∀ (loc : Location) (fuel : Nat), chain.head? = some loc →
        chain.length ≤ fuel →
        get_path locs fuel loc = joinNames (chain.reverse.map Location.name) := by
  intro chain h
  induction h with
  | root l _hmem hroot =>
    intro loc fuel hhead hlen
    have : loc = l := by simpa using hhead.symm
    subst this
    cases fuel with
    | zero => simp at hlen
    | succ f => simp [get_path, hroot, joinNames]
  | step l parent rest pid _hmem hpid hne hfind _htail ih =>
    intro loc fuel hhead hlen
    have : loc = l := by simpa using hhead.symm
    subst this
    cases fuel with
    | zero => simp at hlen
    | succ f =>
      have hf : (parent :: rest).length ≤ f := by
        simpa [Nat.succ_le_succ_iff] using hlen
      have ihp := ih parent f rfl hf
      simp only [get_path, hpid, if_neg hne, hfind, ihp]
      have hrev : (loc :: parent :: rest).reverse.map Location.name =
          (parent :: rest).reverse.map Location.name ++ [loc.name] := by
        rw [List.reverse_cons, List.map_append]
        rfl
      rw [hrev, joinNames_snoc _ _ (by simp)]

theorem find_map_key :
    ∀ (ls : List Location) (f : Location → String) (l : Location),
      (ls.map Location.id).Nodup → l ∈ ls →
      (ls.map (fun x => (x.id, f x))).find? (fun e => e.1 == l.id) = some (l.id, f l) := by
  intro ls
  induction ls with
  | nil => intro _ l _ hl; simp at hl
  | cons a as ih =>
    intro f l hnd hl
    have hnd' : (∀ y ∈ as, ¬ y.id = a.id) ∧ (as.map Location.id).Nodup := by
      simpa using hnd
    by_cases he : a.id = l.id
    · have hal : a = l := by
        rcases List.mem_cons.mp hl with h | h
        · exact h.symm
        · exact absurd he.symm (hnd'.1 l h)
      subst hal
      simp only [List.map_cons]
      rw [List.find?_cons_of_pos _ (by simp)]
    · simp only [List.map_cons]
      rw [List.find?_cons_of_neg _ (by simpa using he)]
      have hl' : l ∈ as := by
        rcases List.mem_cons.mp hl with h | h
        · exact absurd (by rw [h]) he
        · exact h
      exact ih f l hnd'.2 hl'

/-- The path table built by `build_location_lookup_tree` maps each present
location id (ids unique) to its `get_path` value. -/
theorem lookupPath_build (locs : List Location)
    (hids : (locs.map Location.id).Nodup) (l : Location) (hl : l ∈ locs) :
    lookupPath (build_location_lookup_tree locs) l.id =
      some (get_path locs locs.length l) := by
  unfold lookupPath build_location_lookup_tree
  rw [find_map_key locs (fun x => get_path locs locs.length x) l hids hl]
  rfl

/-- Propagation of the first failing segment through the resolution loop. -/
theorem resolveParts_error_of_firstFailure (locs : List Location) (path : String) :
    ∀ (parts : List String) (pn : Option String) (part : String),
      firstFailure locs parts pn = some part →
      resolveParts locs path parts pn = Except.error ⟨path, part⟩ := by
  intro parts
  induction parts with
  | nil => intro pn part h; simp [firstFailure] at h
  | cons p rest ih =>
    intro pn part h
    cases hg : get_location locs p pn with
    | none =>
      have hp : part = p := by
        simp [firstFailure, hg] at h
        exact h.symm
      subst hp
      cases rest with
      | nil => simp [resolveParts, hg]
      | cons q rs => simp [resolveParts, hg]
    | some l =>
      have h' : firstFailure locs rest (some p) = some part := by
        simpa [firstFailure, hg] using h
      cases rest with
      | nil => simp [firstFailure] at h'
      | cons q rs =>
        simp only [resolveParts, hg]
        exact ih (some p) part h'

/-! ## Claim theorems -/

/-- C4: for every location of a well-formed forest (evidenced by its
ancestor chain, with unique ids and the chain no longer than the record
list), the path `build_location_lookup_tree` assigns to it is the names of
its ancestors from the root down to the location itself joined with `/`.
The root case of the claim is the `chain = [loc]` instance, where the join
is the bare name with no separator (exercised by the witness). -/
theorem C4_build_tree_joins_ancestor_names (locs chain : List Location) (loc : Location)
    (hids : (locs.map Location.id).Nodup)
    (hchain : IsUpChain locs chain)
    (hhead : chain.head? = some loc)
    (hlen : chain.length ≤ locs.length) :
    lookupPath (build_location_lookup_tree locs) loc.id =
      some (joinNames (chain.reverse.map Location.name)) := by
  have hmem := upChain_head_mem locs chain hchain loc hhead
  rw [lookupPath_build locs hids loc hmem,
    get_path_chain locs chain hchain loc locs.length hhead hlen]

/-- Witness for C4: the root `Garage` of the spec example gets exactly its
own name, with no separator. -/
theorem C4_build_tree_joins_ancestor_names_witness :
    lookupPath (build_location_lookup_tree exLocsGS) "1" = some "Garage" :=
  C4_build_tree_joins_ancestor_names exLocsGS [exGarage] exGarage (by decide)
    (IsUpChain.root exGarage (by decide) rfl) rfl (by decide)

/-- C5: for every non-empty path string on which some segment lookup
fails (the first failing segment under the loop's threaded parent-name
filter being `part`), `resolve_location_path` raises the resolution error
carrying both the full path and that segment — it does not return a
default. -/
theorem C5_resolution_error_names_segment_and_path (locs : List Location)
    (path part : String) (hne : path ≠ "")
    (hfail : firstFailure locs (pySplit (pyStrip path) '/') none = some part) :
    resolve_location_path locs path = Except.error ⟨path, part⟩ := by
  unfold resolve_location_path
  rw [if_neg hne]
  exact resolveParts_error_of_firstFailure locs path _ none part hfail

/-- Witness for C5: resolving `X` against an empty forest fails at `X`
with the error naming the segment and the path. -/
theorem C5_resolution_error_names_segment_and_path_witness :
    resolve_location_path [] "X" = Except.error ⟨"X", "X"⟩ :=
  C5_resolution_error_names_segment_and_path [] "X" "X" (by decide) rfl

/-- C9: the empty path string resolves to `None` without error, and
consequently a CSV update row whose locationPath cell is empty (or whose
column is absent) is sent with a null `locationId` rather than being
rejected. -/
theorem C9_empty_path_gives_null_location (st : St) (row : Row)
    (iid nm : String) (q : Int)
    (hid : pyGet row "id" = some iid) (hne : iid ≠ "")
    (hpath : pyGetD row "locationPath" "" = "")
    (hnm : pyGet row "name" = some nm)
    (hq : parseQuantity (pyGet row "quantity") = some q) :
    resolve_location_path st.locs "" = Except.ok none ∧
    processRow false st row = Except.ok
      { (resolve_tag_names st (pyGetD row "tags" "")).2 with
        calls := (resolve_tag_names st (pyGetD row "tags" "")).2.calls ++
          [ApiCall.putItem iid
            { name := nm, description := pyGetD row "description" "",
              quantity := q, locationId := none,
              tagIds := (resolve_tag_names st (pyGetD row "tags" "")).1 }],
        logs := (resolve_tag_names st (pyGetD row "tags" "")).2.logs ++
          ["Updated item " ++ nm] } := by
  refine ⟨rfl, ?_⟩
  simp only [processRow, hid, if_neg hne, hpath, hnm, hq]
  rfl

/-- Witness for C9: a concrete row with an empty location path is updated
with a null location. -/
theorem C9_empty_path_gives_null_location_witness :
    resolve_location_path exStEmpty.locs "" = Except.ok none ∧
    processRow false exStEmpty exC9row = Except.ok
      ⟨[], [], 0, [ApiCall.putItem "7" ⟨"W", "", 1, none, []⟩], ["Updated item W"]⟩ :=
  C9_empty_path_gives_null_location exStEmpty exC9row "7" "W" 1 rfl (by decide)
    rfl rfl rfl

/-- C10: a location whose parentId refers to no fetched location is
treated as a root: `get_path` returns its bare name at any recursion
budget (the Python recursion stops immediately there), and the lookup
table maps its id to its own name. -/
theorem C10_dangling_parent_treated_as_root (locs : List Location) (loc : Location)
    (pid : String) (fuel : Nat)
    (hpid : loc.parentId = some pid) (hdangling : by_id_get locs pid = none)
    (hmem : loc ∈ locs) (hids : (locs.map Location.id).Nodup) :
    get_path locs fuel loc = loc.name ∧
    lookupPath (build_location_lookup_tree locs) loc.id = some loc.name := by
  have hgp : ∀ f, get_path locs f loc = loc.name := by
    intro f
    cases f with
    | zero => rfl
    | succ g =>
      by_cases hp : pid = ""
      · simp [get_path, hpid, hp]
      · simp [get_path, hpid, hp, hdangling]
  refine ⟨hgp fuel, ?_⟩
  rw [lookupPath_build locs hids loc hmem, hgp locs.length]

/-- Witness for C10: the orphan record with parent id `ghost` keeps its
own name as its path. -/
theorem C10_dangling_parent_treated_as_root_witness :
    get_path exC10locs 3 exOrphan = "Orphan" ∧
    lookupPath (build_location_lookup_tree exC10locs) "1" = some "Orphan" :=
  C10_dangling_parent_treated_as_root exC10locs exOrphan "ghost" 3 rfl rfl
    (by decide) (by decide)

/-- C6: creating a location that already exists (a record with the
requested name passing the parent-name filter) is a no-op: the call only
logs a skip line — the location list and the call trace are returned
unchanged, so no POST is issued. -/
theorem C6_create_existing_location_noop (st : St) (name description : String)
    (pn : Option String) (l : Location)
    (hl : l ∈ st.locs) (hn : l.name = name)
    (hp : (pn.isNone || (parentName st.locs l == pn)) = true) :
    create_location st name description pn =
      Except.ok (none,
        { st with logs := st.logs ++ ["Location already exists. Skipping."] }) := by
  subst hn
  have hsome : (get_location st.locs l.name pn).isSome = true := by
    unfold get_location
    exact find?_isSome_of_mem _ _ l (List.mem_filter.mpr ⟨hl, by simp⟩) hp
  obtain ⟨y, hy⟩ := Option.isSome_iff_exists.mp hsome
  simp [create_location, hy]

/-- Witness for C6: creating `Garage` again in a world that already holds
it issues no POST and leaves the locations unchanged. -/
theorem C6_create_existing_location_noop_witness :
    create_location exStGarage "Garage" "" none =
      Except.ok (none, ⟨[exGarage], [], 0, [], ["Location already exists. Skipping."]⟩) :=
  C6_create_existing_location_noop exStGarage "Garage" "" none exGarage
    (by decide) rfl (by decide)

/-- C7 counterexample: with no locations at all, creating `X` under the
missing parent `Ghost` raises the `TypeError` produced by subscripting the
failed parent lookup — not a domain error (the code's deliberate domain
failures are `ValueError` raises), and the error does not name the
parent.  The claim as stated (a domain error for the missing parent) is
therefore false at this input. -/
theorem C7_missing_parent_counterexample :
    create_location exStEmpty "X" "" (some "Ghost") =
      Except.error (PyError.typeError "NoneType object is not subscriptable", exStEmpty) ∧
    isDomainError (PyError.typeError "NoneType object is not subscriptable") = false :=
  ⟨rfl, rfl⟩

/-- C7 (amended): creating a location under a named parent that does not
exist (and with no existing name/parent match) raises an error — the
unhandled `TypeError` from subscripting the failed lookup, not a typed
domain error — and aborts that record with the state unchanged, so no
create call is issued. -/
theorem C7_missing_parent_raises_without_post (st : St) (name description pn : String)
    (hex : get_location st.locs name (some pn) = none)
    (hpn : pn ≠ "")
    (hpar : get_location st.locs pn none = none) :
    create_location st name description (some pn) =
      Except.error (PyError.typeError "NoneType object is not subscriptable", st) := by
  simp [create_location, lookupParentId, hex, hpn, hpar]

/-- Witness for C7 (amended): the concrete missing-parent call aborts with
the TypeError and an unchanged world. -/
theorem C7_missing_parent_raises_without_post_witness :
    create_location exStEmpty "X" "" (some "Ghost") =
      Except.error (PyError.typeError "NoneType object is not subscriptable", exStEmpty) :=
  C7_missing_parent_raises_without_post exStEmpty "X" "" "Ghost" rfl (by decide) rfl

/-- C8: a CSV row whose id is missing or empty is skipped with a warning
— no update call is issued for it and no other state changes — and
processing continues with the remaining rows. -/
theorem C8_missing_id_row_skipped (st : St) (dry : Bool) (row : Row) (rest : List Row)
    (h : pyGet row "id" = none ∨ pyGet row "id" = some "") :
    update_items_from_csv_readable st (row :: rest) dry =
      update_items_from_csv_readable
        { st with logs := st.logs ++ [missingIdWarning row] } rest dry := by
  rcases h with h | h
  · simp [update_items_from_csv_readable, processRow, h]
  · simp [update_items_from_csv_readable, processRow, h]

/-- Witness for C8: a row with no id column is skipped (only a warning is
logged) and the run continues with the remaining rows. -/
theorem C8_missing_id_row_skipped_witness :
    update_items_from_csv_readable exStEmpty [exC8row] false =
      update_items_from_csv_readable ⟨[], [], 0, [], ["Missing item id in row"]⟩ [] false :=
  C8_missing_id_row_skipped exStEmpty false exC8row [] (Or.inl rfl)

/-- C2 (failing input): updating items from CSV in dry-run mode with a
row whose tags cell names a tag that does not yet exist issues a mutating
`POST /tags` call — `resolve_tag_names` runs before the dry-run check —
contradicting the claim that dry-run mode never issues mutating calls. -/
theorem C2_dry_run_update_posts_missing_tag :
    callsOf (update_items_from_csv_readable exStEmpty [exC2row] true) =
      [ApiCall.postTags "newtag"] := by
  rfl

/-- C1 counterexample: `exC1locs` has sibling-unique names, and `Garage`
is a valid path (its one segment names the existing root record of id
`1`, witnessed by the ancestor chain `[exC1root]` whose names are exactly
the path's segments).  Yet `resolve_location_path` returns id `3` — the
first record named `Garage` in fetch order, which is the nested one — and
building the path of that returned identifier yields
`Garage/Shelf/Garage`, not the original `Garage`.  The round trip of the
claim therefore fails under sibling-unique names. -/
theorem C1_roundtrip_counterexample :
    siblingUniqueB exC1locs = true ∧
    IsUpChain exC1locs [exC1root] ∧
    pySplit (pyStrip "Garage") '/' = [exC1root].reverse.map Location.name ∧
    resolve_location_path exC1locs "Garage" = Except.ok (some "3") ∧
    exC1root.id = "1" ∧
    lookupPath (build_location_lookup_tree exC1locs) "3" = some "Garage/Shelf/Garage" ∧
    "Garage/Shelf/Garage" ≠ "Garage" :=
  ⟨by decide, IsUpChain.root exC1root (by decide) rfl, rfl, rfl, rfl, rfl, by decide⟩

/-- C1 (amended): for every forest with globally unique names (and unique
ids), and every valid path string — one whose stripped segments are
exactly the root-to-leaf names of an actual ancestor chain of the forest
— resolving the path yields the chain's leaf and building the path of
that identifier returns the original path string. -/
theorem C1_roundtrip_unique_names (locs chain : List Location) (path : String)
    (leaf : Location)
    (hids : (locs.map Location.id).Nodup)
    (hnames : (locs.map Location.name).Nodup)
    (hchain : IsUpChain locs chain)
    (hleaf : chain.head? = some leaf)
    (hlen : chain.length ≤ locs.length)
    (hne : path ≠ "")
    (hstrip : pyStrip path = path)
    (hsegs : pySplit (pyStrip path) '/' = chain.reverse.map Location.name) :
    resolve_location_path locs path = Except.ok (some leaf.id) ∧
    lookupPath (build_location_lookup_tree locs) leaf.id = some path := by
  have hcf := upChain_chainFrom locs hids chain hchain
  have hlast : chain.reverse.getLast? = some leaf := by
    rw [List.getLast?_reverse]
    exact hleaf
  constructor
  · unfold resolve_location_path
    rw [if_neg hne, hsegs]
    exact resolveParts_chain locs path hnames chain.reverse none leaf hcf hlast
  · have hmem := upChain_head_mem locs chain hchain leaf hleaf
    rw [lookupPath_build locs hids leaf hmem,
      get_path_chain locs chain hchain leaf locs.length hleaf hlen]
    have hjp : joinNames (chain.reverse.map Location.name) = path := by
      rw [← hsegs, joinNames_pySplit, hstrip]
    rw [hjp]

/-- Witness for C1 (amended): the spec example `Garage/Shelf` round-trips
under globally unique names. -/
theorem C1_roundtrip_unique_names_witness :
    resolve_location_path exLocsGS "Garage/Shelf" = Except.ok (some "2") ∧
    lookupPath (build_location_lookup_tree exLocsGS) "2" = some "Garage/Shelf" :=
  C1_roundtrip_unique_names exLocsGS [exShelf, exGarage] "Garage/Shelf" exShelf
    (by decide) (by decide)
    (IsUpChain.step exShelf exGarage [] "1" (by decide) rfl (by decide) rfl
      (IsUpChain.root exGarage (by decide) rfl))
    rfl (by decide) (by decide) rfl rfl

/-- C3 counterexample: on the path `A/B` (two segments) over `exC3locs`,
the first segment resolves to `exA` (id `a`), and the only record named
`B` has parent id `a2` — a different record that merely shares the name
`A`.  The claim predicts that record is not a match (so resolution should
fail, since no record named `B` has parent id `a`), but the code accepts
it and returns id `b`. -/
theorem C3_parent_filter_counterexample :
    pySplit (pyStrip "A/B") '/' = ["A", "B"] ∧
    get_location exC3locs "A" none = some exA ∧
    exA.id = "a" ∧
    resolve_location_path exC3locs "A/B" = Except.ok (some "b") ∧
    (exC3locs.filter (fun l => l.name == "B")).map Location.parentId = [some "a2"] ∧
    "a2" ≠ "a" :=
  ⟨rfl, rfl, rfl, rfl, rfl, by decide⟩

/-- C3 (amended): for a path of at least two segments whose first segment
resolves at all, the rest of the resolution is independent of which
record the first segment resolved to — the effective parent filter for
each later segment is the previous segment's *name* — and any record a
later lookup returns bears the segment's name and a parent *named* like
the previous segment (whether or not that parent is the previously
resolved record). -/
theorem C3_parent_filter_is_by_name (locs : List Location) (path p q : String)
    (rest : List String) (l0 l : Location)
    (hne : path ≠ "")
    (hsegs : pySplit (pyStrip path) '/' = p :: q :: rest)
    (hfirst : get_location locs p none = some l0)
    (hsecond : get_location locs q (some p) = some l) :
    resolve_location_path locs path = resolveParts locs path (q :: rest) (some p) ∧
    l.name = q ∧ parentName locs l = some p := by
  refine ⟨?_, ?_⟩
  · unfold resolve_location_path
    rw [if_neg hne, hsegs]
    simp [resolveParts, hfirst]
  · obtain ⟨h1, h2⟩ := get_location_some locs q (some p) l hsecond
    refine ⟨h1, ?_⟩
    simpa using h2

/-- Witness for C3 (amended): on the two-level forest `A / B`, resolving
`A/B` continues from the second segment under the parent-name filter `A`,
and the matched record is named `B` with a parent named `A`. -/
theorem C3_parent_filter_is_by_name_witness :
    resolve_location_path exC3amLocs "A/B" =
      resolveParts exC3amLocs "A/B" ["B"] (some "A") ∧
    exBA.name = "B" ∧ parentName exC3amLocs exBA = some "A" :=
  C3_parent_filter_is_by_name exC3amLocs "A/B" "A" "B" [] exA exBA
    (by decide) rfl rfl rfl

end Homebox
